import Mathlib

/-!
Shallow embedding of the youtube-transcriber service (src/main.py) and proofs
about its segment pipeline, retry coordinators, error classifier,
authentication check and proxy selector.

Python floats are modelled as exact rationals; `round(x, 2)` is modelled as
round-half-even (Python's rounding mode) at two decimal places.
-/

namespace YT

/-- Round-half-even of a rational to the nearest integer, matching Python's
`round` on the real value. -/
def rnd (q : ℚ) : ℤ :=
  let f : ℤ := ⌊q⌋
  let r : ℚ := q - f
  if r < 1/2 then f
  else if 1/2 < r then f + 1
  else if f % 2 = 0 then f else f + 1

/-- Model of Python `round(x, 2)`. -/
def round2 (q : ℚ) : ℚ := (rnd (100 * q) : ℚ) / 100

/-- Predicate: `q` is representable with two decimal places (a multiple of 1/100). -/
def twoDec (q : ℚ) : Prop := ∃ n : ℤ, q = (n : ℚ) / 100

instance (q : ℚ) : Decidable (twoDec q) :=
  decidable_of_iff ((100 * q).den = 1) (by
    constructor
    · intro h
      exact ⟨(100 * q).num, by
        rw [eq_div_iff (by norm_num : (100 : ℚ) ≠ 0)]
        rw [mul_comm q 100]
        exact_mod_cast (Rat.den_eq_one_iff _).mp h |>.symm⟩
    · rintro ⟨n, rfl⟩
      have h100 : (100 : ℚ) * ((n : ℚ) / 100) = (n : ℚ) := by field_simp
      rw [h100]
      exact Rat.den_intCast n)

theorem rnd_intCast (n : ℤ) : rnd (n : ℚ) = n := by
  unfold rnd
  simp

theorem round2_twoDec (q : ℚ) (h : twoDec q) : round2 q = q := by
  obtain ⟨n, rfl⟩ := h
  unfold round2
  have h100 : (100 : ℚ) * ((n : ℚ) / 100) = (n : ℚ) := by field_simp
  rw [h100, rnd_intCast]

theorem twoDec_sub {a b : ℚ} (ha : twoDec a) (hb : twoDec b) : twoDec (a - b) := by
  obtain ⟨m, rfl⟩ := ha
  obtain ⟨n, rfl⟩ := hb
  exact ⟨m - n, by push_cast; ring⟩

/-! ### Strings: Python `.lower()` and substring membership (`in`) -/

/-- Model of Python's `str.lower()` (ASCII-adequate for the patterns used). -/
def lowerStr (s : String) : String := ⟨s.data.map Char.toLower⟩

/-- The pattern (second argument) occurs at the head of the list. -/
def charsLead : List Char → List Char → Bool
  | _, [] => true
  | [], _ :: _ => false
  | a :: as, b :: bs => a == b && charsLead as bs

/-- The pattern (second argument) occurs somewhere in the list. -/
def charsHave : List Char → List Char → Bool
  | [], pat => pat.isEmpty
  | a :: as, pat => charsLead (a :: as) pat || charsHave as pat

/-- Model of Python's `pat in s` substring test. -/
def strHas (s pat : String) : Bool := charsHave s.data pat.data

/-! ### TranscriptSegment and the segment pipeline (src/main.py) -/

/-- Response model `TranscriptSegment`: one timed caption unit
(src/main.py, class TranscriptSegment). -/
structure TranscriptSegment where
  text : String
  start : ℚ
  duration : ℚ
  «end» : ℚ
deriving DecidableEq

instance : Inhabited TranscriptSegment := ⟨⟨"", 0, 0, 0⟩⟩

/-- Construction of a response segment from a raw library segment
(src/main.py lines 387-392, in get_segmented_transcript). -/
def mkSegment (text : String) (start duration : ℚ) : TranscriptSegment :=
  ⟨text, round2 start, round2 duration, round2 (start + duration)⟩

/-- Python slice `l[::k]`: elements at indices divisible by `k`. -/
def strideSelect (l : List α) (k : ℕ) : List α :=
  (l.enum.filter (fun p => p.1 % k = 0)).map Prod.snd

/-- The Python loop `for i in range(0, len(l), k): batch = l[i:i+k]`:
`range(0, n, k)` has `⌈n/k⌉` values `i = 0, k, 2k, ...` and the slice
`l[i:i+k]` is `(l.drop i).take k`. Used with `k ≥ 2`; every batch is then
nonempty, so the loop's `if batch:` guard never skips. -/
def chunkList (k : ℕ) (l : List α) : List (List α) :=
  (List.range ((l.length + k - 1) / k)).map (fun i => (l.drop (i * k)).take k)

/-- Merging one batch into a single segment
(src/main.py lines 312-322, inside apply_segment_filters). -/
def mergeChunk (batch : List TranscriptSegment) : TranscriptSegment :=
  ⟨String.intercalate " " (batch.map TranscriptSegment.text),
   round2 batch.headI.start,
   round2 (batch.getLastI.«end» - batch.headI.start),
   round2 batch.getLastI.«end»⟩

/-- Model of `apply_segment_filters` (src/main.py lines 287-329), transcribed stage by
stage: truncate-by-time, subsample, merge-adjacent, limit. -/
def apply_segment_filters (segments : List TranscriptSegment)
    (limit : Option ℕ) (merge_segments : Option ℕ)
    (max_duration : Option ℚ) (sample_rate : Option ℕ) :
    List TranscriptSegment :=
  let fs0 := segments
  let fs1 := match max_duration with
    | some md => fs0.filter (fun s => decide (s.start < md))
    | none => fs0
  let fs2 := match sample_rate with
    | some sr => if 1 < sr then strideSelect fs1 sr else fs1
    | none => fs1
  let fs3 := match merge_segments with
    | some ms => if 1 < ms then (chunkList ms fs2).map mergeChunk else fs2
    | none => fs2
  match limit with
  | some l => fs3.take l
  | none => fs3

/-! Spec-side stage functions (one per stage of spec section 4.4), used to
state that the pipeline is their composition in the fixed order. -/

/-- Spec stage 1: keep segments with `start < max_duration`. -/
def truncateStage (max_duration : Option ℚ) (l : List TranscriptSegment) :
    List TranscriptSegment :=
  match max_duration with
  | some md => l.filter (fun s => decide (s.start < md))
  | none => l

/-- Spec stage 2: keep every `sample_rate`-th segment from index 0. -/
def subsampleStage (sample_rate : Option ℕ) (l : List TranscriptSegment) :
    List TranscriptSegment :=
  match sample_rate with
  | some sr => if 1 < sr then strideSelect l sr else l
  | none => l

/-- Spec stage 3: merge consecutive batches of `merge_segments` segments. -/
def mergeStage (merge_segments : Option ℕ) (l : List TranscriptSegment) :
    List TranscriptSegment :=
  match merge_segments with
  | some ms => if 1 < ms then (chunkList ms l).map mergeChunk else l
  | none => l

/-- Spec stage 4: keep only the first `limit` segments. -/
def limitStage (limit : Option ℕ) (l : List TranscriptSegment) :
    List TranscriptSegment :=
  match limit with
  | some n => l.take n
  | none => l

/-! ### Supporting lemmas for the pipeline -/

theorem strideSelect_subset (l : List α) (k : ℕ) : strideSelect l k ⊆ l := by
  intro x hx
  unfold strideSelect at hx
  obtain ⟨⟨i, y⟩, hy, rfl⟩ := List.mem_map.mp hx
  have := List.mem_filter.mp hy |>.1
  have hget := List.mem_enum_iff_getElem?.mp this
  exact List.getElem?_mem hget

theorem chunkList_mem {k : ℕ} {l : List α} {c : List α} (hk : 1 ≤ k)
    (hc : c ∈ chunkList k l) :
    ∃ i, i * k < l.length ∧ c = (l.drop (i * k)).take k := by
  unfold chunkList at hc
  obtain ⟨i, hi, rfl⟩ := List.mem_map.mp hc
  have hi' : i < (l.length + k - 1) / k := List.mem_range.mp hi
  refine ⟨i, ?_, rfl⟩
  have h1 : i + 1 ≤ (l.length + k - 1) / k := hi'
  have h2 : (i + 1) * k ≤ l.length + k - 1 :=
    (Nat.le_div_iff_mul_le (by omega)).mp h1
  have h3 : i * k + k ≤ l.length + k - 1 := by
    calc i * k + k = (i + 1) * k := by ring
    _ ≤ l.length + k - 1 := h2
  omega

theorem chunkList_length (k : ℕ) (l : List α) :
    (chunkList k l).length = (l.length + k - 1) / k := by
  unfold chunkList
  simp

theorem chunkList_getElem (k : ℕ) (l : List α) (i : ℕ) (hk : 1 ≤ k)
    (hi : i * k < l.length) :
    (chunkList k l)[i]? = some ((l.drop (i * k)).take k) := by
  have hmul : (i + 1) * k = i * k + k := by ring
  have hlt : i < (l.length + k - 1) / k := by
    have h2 : (i + 1) * k ≤ l.length + k - 1 := by omega
    have := (Nat.le_div_iff_mul_le (show 0 < k by omega)).mpr h2
    omega
  unfold chunkList
  rw [List.getElem?_map, List.getElem?_range hlt]
  rfl

theorem chunk_ne_nil {k : ℕ} {l : List α} {i : ℕ} (hk : 1 ≤ k)
    (hi : i * k < l.length) : (l.drop (i * k)).take k ≠ [] := by
  have : ((l.drop (i * k)).take k).length = min k (l.length - i * k) := by
    simp
  intro hnil
  rw [hnil] at this
  simp at this
  omega

theorem getLastI_mem [Inhabited α] (a : α) (as : List α) :
    (a :: as).getLastI ∈ a :: as := by
  rw [List.getLastI_eq_getLast?, List.getLast?_eq_getLast (a :: as) (by simp)]
  exact List.getLast_mem _

theorem headI_mem [Inhabited α] {l : List α} (h : l ≠ []) : l.headI ∈ l := by
  cases l with
  | nil => exact absurd rfl h
  | cons a as => exact List.mem_cons_self a as

/-- The creation/merge invariant on a segment: time fields have two decimal
places and `end = start + duration`. -/
def SegInv (s : TranscriptSegment) : Prop :=
  twoDec s.start ∧ twoDec s.«end» ∧ s.«end» = s.start + s.duration

theorem mergeChunk_inv {c : List TranscriptSegment} (hne : c ≠ [])
    (hinv : ∀ s ∈ c, SegInv s) : SegInv (mergeChunk c) := by
  obtain ⟨a, as, rfl⟩ := List.exists_cons_of_ne_nil hne
  have hhead : SegInv a := hinv a (List.mem_cons_self a as)
  have hlast : SegInv (a :: as).getLastI := hinv _ (getLastI_mem a as)
  obtain ⟨hs2, _, _⟩ := hhead
  obtain ⟨_, he2, _⟩ := hlast
  have h1 : round2 (a :: as).headI.start = a.start := round2_twoDec _ hs2
  have h2 : round2 (a :: as).getLastI.«end» = (a :: as).getLastI.«end» :=
    round2_twoDec _ he2
  have h3 : round2 ((a :: as).getLastI.«end» - (a :: as).headI.start) =
      (a :: as).getLastI.«end» - a.start := round2_twoDec _ (twoDec_sub he2 hs2)
  refine ⟨?_, ?_, ?_⟩
  · show twoDec (round2 (a :: as).headI.start)
    rw [h1]; exact hs2
  · show twoDec (round2 (a :: as).getLastI.«end»)
    rw [h2]; exact he2
  · show round2 (a :: as).getLastI.«end» =
      round2 (a :: as).headI.start + round2 ((a :: as).getLastI.«end» - (a :: as).headI.start)
    rw [h1, h2, h3]; ring

theorem apply_segment_filters_eq_stages
    (segments : List TranscriptSegment) (limit merge_segments : Option ℕ)
    (max_duration : Option ℚ) (sample_rate : Option ℕ) :
    apply_segment_filters segments limit merge_segments max_duration sample_rate =
      limitStage limit (mergeStage merge_segments
        (subsampleStage sample_rate (truncateStage max_duration segments))) := rfl

theorem truncateStage_subset (md : Option ℚ) (l : List TranscriptSegment) :
    truncateStage md l ⊆ l := by
  unfold truncateStage
  match md with
  | some d => exact List.filter_subset' l
  | none => exact fun _ h => h

theorem subsampleStage_subset (sr : Option ℕ) (l : List TranscriptSegment) :
    subsampleStage sr l ⊆ l := by
  unfold subsampleStage
  match sr with
  | some r =>
    show (if 1 < r then strideSelect l r else l) ⊆ l
    by_cases h : 1 < r
    · rw [if_pos h]; exact strideSelect_subset l r
    · rw [if_neg h]; exact fun _ h => h
  | none => exact fun _ h => h

theorem limitStage_subset (lim : Option ℕ) (l : List TranscriptSegment) :
    limitStage lim l ⊆ l := by
  unfold limitStage
  match lim with
  | some n => exact List.take_subset n l
  | none => exact fun _ h => h

theorem mergeStage_mem_cases {ms : Option ℕ} {l : List TranscriptSegment}
    {s : TranscriptSegment} (hs : s ∈ mergeStage ms l) :
    s ∈ l ∨ ∃ c, c ≠ [] ∧ c ⊆ l ∧ s = mergeChunk c := by
  unfold mergeStage at hs
  match ms with
  | none => exact Or.inl hs
  | some m =>
    have hs' : s ∈ (if 1 < m then (chunkList m l).map mergeChunk else l) := hs
    by_cases hm : 1 < m
    · rw [if_pos hm] at hs'
      obtain ⟨c, hc, rfl⟩ := List.mem_map.mp hs'
      obtain ⟨i, hi, rfl⟩ := chunkList_mem (by omega) hc
      exact Or.inr ⟨_, chunk_ne_nil (by omega) hi,
        fun x hx => List.mem_of_mem_drop (List.mem_of_mem_take hx), rfl⟩
    · rw [if_neg hm] at hs'
      exact Or.inl hs'

theorem apply_segment_filters_mem_cases
    (segments : List TranscriptSegment) (limit merge_segments : Option ℕ)
    (max_duration : Option ℚ) (sample_rate : Option ℕ)
    {s : TranscriptSegment}
    (hs : s ∈ apply_segment_filters segments limit merge_segments max_duration sample_rate) :
    s ∈ segments ∨
      ∃ c, c ≠ [] ∧ c ⊆ segments ∧ s = mergeChunk c := by
  rw [apply_segment_filters_eq_stages] at hs
  have hs2 := limitStage_subset _ _ hs
  have sub12 : subsampleStage sample_rate (truncateStage max_duration segments) ⊆ segments :=
    fun x hx => truncateStage_subset _ _ (subsampleStage_subset _ _ hx)
  rcases mergeStage_mem_cases hs2 with h | ⟨c, hne, hsub, rfl⟩
  · exact Or.inl (sub12 h)
  · exact Or.inr ⟨c, hne, fun x hx => sub12 (hsub hx), rfl⟩

theorem intercalate_pair (a b : String) :
    String.intercalate " " [a, b] = a ++ " " ++ b := by
  simp [String.intercalate, String.intercalate.go]

/-- C1 (amended): if every input segment has `start` and `end` representable
with two decimal places and satisfies `end = start + duration`, then every
segment output by `apply_segment_filters` (under any combination of filter
parameters, merged segments included) satisfies `end = start + duration`.
The unamended claim fails because creation rounds `start`, `duration` and
`start + duration` independently. -/
theorem C1_pipeline_end_invariant (segments : List TranscriptSegment)
    (limit merge_segments : Option ℕ) (max_duration : Option ℚ)
    (sample_rate : Option ℕ)
    (h : ∀ t ∈ segments,
      twoDec t.start ∧ twoDec t.«end» ∧ t.«end» = t.start + t.duration) :
    ∀ s ∈ apply_segment_filters segments limit merge_segments max_duration sample_rate,
      s.«end» = s.start + s.duration := by
  intro s hs
  rcases apply_segment_filters_mem_cases segments _ _ _ _ hs with hmem | ⟨c, hne, hsub, rfl⟩
  · exact (h s hmem).2.2
  · exact (mergeChunk_inv hne (fun x hx => h x (hsub hx))).2.2

/-- C1 counterexample: the segment created from a raw segment with
start = duration = 0.004 has rounded fields start = 0, duration = 0,
end = 0.01, and the pipeline (all filters unset) returns it unchanged,
so its `end ≠ start + duration`. -/
theorem C1_counterexample :
    ∃ s ∈ apply_segment_filters [mkSegment "a" (1/250) (1/250)] none none none none,
      s.«end» ≠ s.start + s.duration := by
  refine ⟨mkSegment "a" (1/250) (1/250), List.mem_singleton_self _, ?_⟩
  show round2 (1/250 + 1/250) ≠ round2 (1/250) + round2 (1/250)
  norm_num [round2, rnd]

/-- Witness for C1: a concrete input satisfying the hypothesis, and the
invariant on the corresponding output. -/
theorem C1_witness :
    (∀ t ∈ [(⟨"x", 1, 2, 3⟩ : TranscriptSegment)],
      twoDec t.start ∧ twoDec t.«end» ∧ t.«end» = t.start + t.duration) ∧
    (∀ s ∈ apply_segment_filters [(⟨"x", 1, 2, 3⟩ : TranscriptSegment)]
        (some 1) (some 2) (some 10) (some 2),
      s.«end» = s.start + s.duration) := by
  have hh : ∀ t ∈ [(⟨"x", 1, 2, 3⟩ : TranscriptSegment)],
      twoDec t.start ∧ twoDec t.«end» ∧ t.«end» = t.start + t.duration := by
    intro t ht
    rw [List.mem_singleton] at ht
    subst ht
    exact ⟨⟨100, by norm_num⟩, ⟨300, by norm_num⟩, by norm_num⟩
  exact ⟨hh, C1_pipeline_end_invariant _ (some 1) (some 2) (some 10) (some 2) hh⟩

/-- C2: the pipeline is the composition of the four stages in the fixed
order truncate-by-time, subsample, merge-adjacent, limit; and on any
4 segments with `merge_segments = 2` and `limit = 1` the output is exactly
the single merge of the first two input segments. -/
theorem C2_stage_order_limit_last :
    (∀ (segments : List TranscriptSegment) (limit merge_segments : Option ℕ)
        (max_duration : Option ℚ) (sample_rate : Option ℕ),
      apply_segment_filters segments limit merge_segments max_duration sample_rate =
        limitStage limit (mergeStage merge_segments
          (subsampleStage sample_rate (truncateStage max_duration segments)))) ∧
    (∀ s1 s2 s3 s4 : TranscriptSegment,
      apply_segment_filters [s1, s2, s3, s4] (some 1) (some 2) none none =
        [⟨s1.text ++ " " ++ s2.text, round2 s1.start,
          round2 (s2.«end» - s1.start), round2 s2.«end»⟩]) := by
  constructor
  · intro segments limit merge_segments max_duration sample_rate
    exact apply_segment_filters_eq_stages segments limit merge_segments max_duration sample_rate
  · intro s1 s2 s3 s4
    simp [apply_segment_filters, chunkList, mergeChunk, List.range_succ,
      List.getLastI, intercalate_pair]

/-- C3: with `merge_segments = ms > 1` (and the other parameters unset) the
pipeline performs only the merge stage: the output has `⌈n / ms⌉` segments,
the `i`-th being the batch `fs[i*ms : i*ms + ms]` merged into one segment
whose text is the batch texts space-joined in order, whose start is the
first batch member's start, whose end is the last batch member's end, and
whose duration is their difference, all rounded to 2 decimals; with
`merge_segments = 1` the stage is skipped. -/
theorem C3_merge_every_batches (fs : List TranscriptSegment) (ms : ℕ)
    (h : 1 < ms) :
    ((apply_segment_filters fs none (some ms) none none).length =
        (fs.length + ms - 1) / ms ∧
      ∀ i : ℕ, i * ms < fs.length →
        (apply_segment_filters fs none (some ms) none none)[i]? =
          some ⟨String.intercalate " "
                  (((fs.drop (i * ms)).take ms).map TranscriptSegment.text),
                round2 ((fs.drop (i * ms)).take ms).headI.start,
                round2 (((fs.drop (i * ms)).take ms).getLastI.«end» -
                  ((fs.drop (i * ms)).take ms).headI.start),
                round2 ((fs.drop (i * ms)).take ms).getLastI.«end»⟩) ∧
    (∀ gs : List TranscriptSegment,
      apply_segment_filters gs none (some 1) none none = gs) := by
  have hout : apply_segment_filters fs none (some ms) none none =
      (chunkList ms fs).map mergeChunk := by
    show (if 1 < ms then (chunkList ms fs).map mergeChunk else fs) = _
    rw [if_pos h]
  refine ⟨⟨?_, ?_⟩, ?_⟩
  · rw [hout, List.length_map, chunkList_length]
  · intro i hi
    rw [hout, List.getElem?_map, chunkList_getElem ms fs i (by omega) hi]
    rfl
  · intro gs
    show (if 1 < 1 then (chunkList 1 gs).map mergeChunk else gs) = gs
    rw [if_neg (by omega)]

/-- Witness for C3: merging 7 concrete segments 3 at a time yields
`⌈7/3⌉ = 3` segments. -/
theorem C3_witness :
    (apply_segment_filters
        [⟨"a", 0, 1, 1⟩, ⟨"b", 1, 1, 2⟩, ⟨"c", 2, 1, 3⟩, ⟨"d", 3, 1, 4⟩,
         ⟨"e", 4, 1, 5⟩, ⟨"f", 5, 1, 6⟩, ⟨"g", 6, 1, 7⟩]
        none (some 3) none none).length = 3 := by
  have := (C3_merge_every_batches
    [⟨"a", 0, 1, 1⟩, ⟨"b", 1, 1, 2⟩, ⟨"c", 2, 1, 3⟩, ⟨"d", 3, 1, 4⟩,
     ⟨"e", 4, 1, 5⟩, ⟨"f", 5, 1, 6⟩, ⟨"g", 6, 1, 7⟩] 3 (by decide)).1.1
  simpa using this

/-- C4: with `max_duration` set (and the other parameters unset) the
pipeline keeps exactly the segments with `start < max_duration`; a segment
whose start equals the boundary is dropped; if every start is `≥`
`max_duration` the result is the empty list. -/
theorem C4_truncate_strict (fs : List TranscriptSegment) (md : ℚ) :
    apply_segment_filters fs none none (some md) none =
      fs.filter (fun s => decide (s.start < md)) ∧
    (∀ s ∈ fs, s.start = md →
      s ∉ apply_segment_filters fs none none (some md) none) ∧
    ((∀ s ∈ fs, md ≤ s.start) →
      apply_segment_filters fs none none (some md) none = []) := by
  have h1 : apply_segment_filters fs none none (some md) none =
      fs.filter (fun s => decide (s.start < md)) := rfl
  refine ⟨h1, ?_, ?_⟩
  · intro s _ hstart hmem
    rw [h1] at hmem
    have hlt := List.mem_filter.mp hmem |>.2
    rw [decide_eq_true_iff] at hlt
    rw [hstart] at hlt
    exact lt_irrefl md hlt
  · intro hall
    rw [h1, List.filter_eq_nil_iff]
    intro a ha
    rw [decide_eq_true_iff]
    exact not_lt.mpr (hall a ha)

/-- Witness for C4: a single segment starting exactly at the boundary is
dropped, yielding the empty (valid) result. -/
theorem C4_witness :
    apply_segment_filters [(⟨"a", 5, 1, 6⟩ : TranscriptSegment)]
      none none (some 5) none = [] := by
  refine (C4_truncate_strict [(⟨"a", 5, 1, 6⟩ : TranscriptSegment)] 5).2.2 ?_
  intro s hs
  rw [List.mem_singleton] at hs
  rw [hs]

/-! ### Proxy selector, API client and retry coordinators -/

/-- Transport configuration of `GenericProxyConfig`: http/https proxy URLs. -/
structure ProxyConfig where
  http_url : String
  https_url : String
deriving DecidableEq

/-- A `YouTubeTranscriptApi` instance: proxy-configured or direct.
`YouTubeTranscriptApi()` with no arguments is the direct client. -/
inductive ApiClient
  | withProxy (cfg : ProxyConfig)
  | direct
deriving DecidableEq

/-- Model of `generate_session_id` (src/main.py lines 128-132): the first 8
characters (`str(uuid.uuid4())[:8]`) of a freshly generated UUID string,
supplied as the argument. -/
def generate_session_id (uuidStr : String) : String := ⟨uuidStr.data.take 8⟩

/-- Model of `get_youtube_api` (src/main.py lines 136-170). The environment reads are
arguments (`none` = unset); `uuidStr` is the fresh UUID consumed by
`generate_session_id`; `build` models whether constructing
`GenericProxyConfig`/`YouTubeTranscriptApi(proxy_config=...)` raises.
Python truthiness makes an empty username or password fall through to the
direct client. -/
def get_youtube_api (proxy_username proxy_password : Option String)
    (proxy_endpoint : Option String) (uuidStr : String)
    (build : ProxyConfig → Except String Unit) : ApiClient :=
  let endpoint := proxy_endpoint.getD "brd.superproxy.io:22225"
  match proxy_username, proxy_password with
  | some u, some p =>
    if u ≠ "" ∧ p ≠ "" then
      let session_id := generate_session_id uuidStr
      let rotated_username := u ++ "-session-" ++ session_id
      let url := "http://" ++ rotated_username ++ ":" ++ p ++ "@" ++ endpoint
      let proxy_config : ProxyConfig := ⟨url, url⟩
      match build proxy_config with
      | .ok _ => ApiClient.withProxy proxy_config
      | .error _ => ApiClient.direct
    else ApiClient.direct
  | _, _ => ApiClient.direct

/-- The retryable-signal test of the retry coordinators (src/main.py lines
251-254 and 273-276): `error_str = str(e).lower()` and a substring check
for "max retries", "timeout" or "proxy". -/
def retrySignal (e : String) : Bool :=
  let error_str := lowerStr e
  strHas error_str "max retries" || strHas error_str "timeout" ||
    strHas error_str "proxy"

/-- One fetch attempt (src/main.py lines 246-249):
`api.fetch(video_id, languages=languages)` when `languages` is truthy,
`api.fetch(video_id)` otherwise (a `none` third argument models the call
without the keyword). `op` is the external library call, indexed by the
attempt number to model a changing network. -/
def fetchCall (op : ApiClient → String → Option (List String) → ℕ → Except String α)
    (api : ApiClient) (video_id : String) (languages : Option (List String))
    (attempt : ℕ) : Except String α :=
  match languages with
  | some ls => if ls.isEmpty then op api video_id none attempt
               else op api video_id (some ls) attempt
  | none => op api video_id none attempt

/-- The loop of `fetch_with_retry` (src/main.py lines 244-263), from
attempt number `attempt` with current client `api`. On a failure carrying a
retryable signal with attempts remaining, the next attempt uses a freshly
built direct client; otherwise the error is re-raised. The final branch is
the trailing `raise Exception("All retry attempts failed")` after the loop. -/
def fetchLoop (op : ApiClient → String → Option (List String) → ℕ → Except String α)
    (video_id : String) (languages : Option (List String)) (max_retries : ℕ)
    (api : ApiClient) (attempt : ℕ) : Except String α :=
  if attempt ≤ max_retries then
    match fetchCall op api video_id languages attempt with
    | .ok v => .ok v
    | .error e =>
      if h : attempt < max_retries ∧ retrySignal e = true then
        fetchLoop op video_id languages max_retries ApiClient.direct (attempt + 1)
      else .error e
  else .error "All retry attempts failed"
termination_by max_retries + 1 - attempt
decreasing_by omega

/-- Model of `fetch_with_retry` (src/main.py lines 240-263). -/
def fetch_with_retry (op : ApiClient → String → Option (List String) → ℕ → Except String α)
    (api : ApiClient) (video_id : String) (languages : Option (List String))
    (max_retries : ℕ) : Except String α :=
  fetchLoop op video_id languages max_retries api 0

/-- One list attempt: `api.list(video_id)` (src/main.py line 271). -/
def listCall (opL : ApiClient → String → ℕ → Except String β)
    (api : ApiClient) (video_id : String) (attempt : ℕ) : Except String β :=
  opL api video_id attempt

/-- The loop of `list_with_retry` (src/main.py lines 269-285), structurally
identical to `fetchLoop`. -/
def listLoop (opL : ApiClient → String → ℕ → Except String β)
    (video_id : String) (max_retries : ℕ)
    (api : ApiClient) (attempt : ℕ) : Except String β :=
  if attempt ≤ max_retries then
    match listCall opL api video_id attempt with
    | .ok v => .ok v
    | .error e =>
      if h : attempt < max_retries ∧ retrySignal e = true then
        listLoop opL video_id max_retries ApiClient.direct (attempt + 1)
      else .error e
  else .error "All retry attempts failed"
termination_by max_retries + 1 - attempt
decreasing_by omega

/-- Model of `list_with_retry` (src/main.py lines 265-285). -/
def list_with_retry (opL : ApiClient → String → ℕ → Except String β)
    (api : ApiClient) (video_id : String) (max_retries : ℕ) : Except String β :=
  listLoop opL video_id max_retries api 0

/-- The client used at a given attempt index of a coordinator started with
client `api`: the initial client on attempt 0, a freshly built direct
client on every later attempt. -/
def clientAt (api : ApiClient) (attempt : ℕ) : ApiClient :=
  if attempt = 0 then api else ApiClient.direct

/-- Generalization of `clientAt` to a loop entered at attempt `i`. -/
def clientFrom (api : ApiClient) (i j : ℕ) : ApiClient :=
  if j = i then api else ApiClient.direct

/-! ### Error classifier -/

/-- The runtime classes of `youtube_transcript_api` errors the classifier
dispatches on; `generic` stands for every other error class. -/
inductive ErrKind
  | transcriptsDisabled
  | noTranscriptFound
  | videoUnavailable
  | requestBlocked
  | ipBlocked
  | notTranslatable
  | translationLanguageNotAvailable
  | generic
deriving DecidableEq

/-- A raised error value: its runtime class and its `str(e)`. -/
structure PyError where
  kind : ErrKind
  msg : String
deriving DecidableEq

/-- An HTTP error response: status code and detail message. -/
structure HTTPException where
  status_code : ℕ
  detail : String
deriving DecidableEq

/-- Model of `handle_transcript_errors` (src/main.py lines 172-238), the twelve-rule
classifier in source order; `isinstance` checks are modelled by the error's
runtime class (`(RequestBlocked, IpBlocked)` matches either class). -/
def handle_transcript_errors (e : PyError) (video_id : String) : HTTPException :=
  let error_str := lowerStr e.msg
  if strHas e.msg "407" || strHas error_str "auth failed" ||
      strHas error_str "ip_forbidden" then
    ⟨502, "Proxy authentication failed. Please check your proxy credentials or try again later."⟩
  else if strHas error_str "proxyerror" || strHas error_str "tunnel connection failed" then
    ⟨502, "Proxy connection failed. The service may be temporarily unavailable."⟩
  else if strHas error_str "max retries exceeded" || strHas error_str "connection pool" then
    ⟨503, "Service temporarily unavailable. Please try again later."⟩
  else if strHas error_str "read timed out" || strHas error_str "timeout" then
    ⟨504, "Request timed out. Please try again later."⟩
  else if e.kind = ErrKind.transcriptsDisabled then
    ⟨403, "Transcripts are disabled for video " ++ video_id⟩
  else if e.kind = ErrKind.noTranscriptFound then
    ⟨404, "No transcript found for video " ++ video_id ++ " in the requested language(s)"⟩
  else if e.kind = ErrKind.videoUnavailable then
    ⟨404, "Video " ++ video_id ++ " is unavailable"⟩
  else if strHas e.msg "429" || strHas error_str "too many requests" then
    ⟨429, "Too many requests. Please try again later."⟩
  else if e.kind = ErrKind.requestBlocked ∨ e.kind = ErrKind.ipBlocked then
    ⟨403, "Request blocked. Consider using a proxy service."⟩
  else if e.kind = ErrKind.notTranslatable then
    ⟨400, "The requested transcript cannot be translated"⟩
  else if e.kind = ErrKind.translationLanguageNotAvailable then
    ⟨400, "Translation to the requested language is not available"⟩
  else
    ⟨500, "An unexpected error occurred: " ++ e.msg⟩

/-! ### Bearer-token authentication -/

/-- Model of `verify_bearer_token` (src/main.py lines 98-126). `api_token` is the
`API_TOKEN` environment variable (`none` = unset), `credentials` the token
presented in the `Authorization: Bearer` header (`none` = no header).
Python truthiness: an empty configured token also skips authentication. -/
def verify_bearer_token (api_token : Option String) (credentials : Option String) :
    Except HTTPException Bool :=
  match api_token with
  | none => .ok true
  | some tok =>
    if tok = "" then .ok true
    else match credentials with
      | none => .error ⟨401, "Bearer token required"⟩
      | some cred =>
        if cred ≠ tok then .error ⟨401, "Invalid bearer token"⟩
        else .ok true

theorem clientFrom_direct (i j : ℕ) (hj : i + 1 ≤ j) (api : ApiClient) :
    clientFrom ApiClient.direct (i + 1) j = clientFrom api i j := by
  unfold clientFrom
  rw [ite_self, if_neg (by omega)]

theorem fetchLoop_spec (op : ApiClient → String → Option (List String) → ℕ → Except String α)
    (video_id : String) (languages : Option (List String)) (max_retries : ℕ) :
    ∀ n i api, i ≤ max_retries → max_retries - i = n →
      ∃ k, i ≤ k ∧ k ≤ max_retries ∧
        fetchLoop op video_id languages max_retries api i =
          fetchCall op (clientFrom api i k) video_id languages k ∧
        (∀ j, i ≤ j → j < k →
          ∃ e, fetchCall op (clientFrom api i j) video_id languages j = .error e ∧
            retrySignal e = true) ∧
        (∀ e, fetchCall op (clientFrom api i k) video_id languages k = .error e →
          k = max_retries ∨ retrySignal e = false) := by
  intro n
  induction n using Nat.strong_induction_on with
  | _ n IH =>
    intro i api hi hn
    rw [fetchLoop, if_pos hi]
    cases hop : fetchCall op api video_id languages i with
    | ok v =>
      refine ⟨i, le_refl i, hi, ?_, ?_, ?_⟩
      · rw [show clientFrom api i i = api from if_pos rfl, hop]
      · intro j h1 h2; omega
      · intro e he
        rw [show clientFrom api i i = api from if_pos rfl, hop] at he
        exact absurd he (by simp)
    | error e =>
      by_cases hc : i < max_retries ∧ retrySignal e = true
      · simp only [dif_pos hc]
        obtain ⟨k, hk1, hk2, hres, hfail, hlast⟩ :=
          IH (max_retries - (i + 1)) (by omega) (i + 1) ApiClient.direct (by omega) rfl
        refine ⟨k, by omega, hk2, ?_, ?_, ?_⟩
        · rw [hres, clientFrom_direct i k hk1]
        · intro j h1 h2
          rcases Nat.eq_or_lt_of_le h1 with rfl | h1'
          · exact ⟨e, by rw [show clientFrom api i i = api from if_pos rfl, hop], hc.2⟩
          · obtain ⟨e', he', hs'⟩ := hfail j (by omega) h2
            exact ⟨e', by rw [← clientFrom_direct i j (by omega) api, he'], hs'⟩
        · intro e' he'
          exact hlast e' (by rw [clientFrom_direct i k hk1 api, he'])
      · simp only [dif_neg hc]
        refine ⟨i, le_refl i, hi, ?_, ?_, ?_⟩
        · rw [show clientFrom api i i = api from if_pos rfl, hop]
        · intro j h1 h2; omega
        · intro e' he'
          rw [show clientFrom api i i = api from if_pos rfl, hop] at he'
          have : e' = e := by
            have := he'.symm
            simpa using this
          subst this
          rcases not_and_or.mp hc with h | h
          · exact Or.inl (by omega)
          · exact Or.inr (by simpa using h)

theorem listLoop_spec (opL : ApiClient → String → ℕ → Except String β)
    (video_id : String) (max_retries : ℕ) :
    ∀ n i api, i ≤ max_retries → max_retries - i = n →
      ∃ k, i ≤ k ∧ k ≤ max_retries ∧
        listLoop opL video_id max_retries api i =
          listCall opL (clientFrom api i k) video_id k ∧
        (∀ j, i ≤ j → j < k →
          ∃ e, listCall opL (clientFrom api i j) video_id j = .error e ∧
            retrySignal e = true) ∧
        (∀ e, listCall opL (clientFrom api i k) video_id k = .error e →
          k = max_retries ∨ retrySignal e = false) := by
  intro n
  induction n using Nat.strong_induction_on with
  | _ n IH =>
    intro i api hi hn
    rw [listLoop, if_pos hi]
    cases hop : listCall opL api video_id i with
    | ok v =>
      refine ⟨i, le_refl i, hi, ?_, ?_, ?_⟩
      · rw [show clientFrom api i i = api from if_pos rfl, hop]
      · intro j h1 h2; omega
      · intro e he
        rw [show clientFrom api i i = api from if_pos rfl, hop] at he
        exact absurd he (by simp)
    | error e =>
      by_cases hc : i < max_retries ∧ retrySignal e = true
      · simp only [dif_pos hc]
        obtain ⟨k, hk1, hk2, hres, hfail, hlast⟩ :=
          IH (max_retries - (i + 1)) (by omega) (i + 1) ApiClient.direct (by omega) rfl
        refine ⟨k, by omega, hk2, ?_, ?_, ?_⟩
        · rw [hres, clientFrom_direct i k hk1]
        · intro j h1 h2
          rcases Nat.eq_or_lt_of_le h1 with rfl | h1'
          · exact ⟨e, by rw [show clientFrom api i i = api from if_pos rfl, hop], hc.2⟩
          · obtain ⟨e', he', hs'⟩ := hfail j (by omega) h2
            exact ⟨e', by rw [← clientFrom_direct i j (by omega) api, he'], hs'⟩
        · intro e' he'
          exact hlast e' (by rw [clientFrom_direct i k hk1 api, he'])
      · simp only [dif_neg hc]
        refine ⟨i, le_refl i, hi, ?_, ?_, ?_⟩
        · rw [show clientFrom api i i = api from if_pos rfl, hop]
        · intro j h1 h2; omega
        · intro e' he'
          rw [show clientFrom api i i = api from if_pos rfl, hop] at he'
          have : e' = e := by
            have := he'.symm
            simpa using this
          subst this
          rcases not_and_or.mp hc with h | h
          · exact Or.inl (by omega)
          · exact Or.inr (by simpa using h)

theorem clientFrom_zero (api : ApiClient) (k : ℕ) :
    clientFrom api 0 k = clientAt api k := rfl

/-- C5: each retry coordinator returns the outcome of some attempt
`k ≤ max_retries` (hence makes at most `max_retries + 1` sequential
attempts and never substitutes an empty or default result for an error);
attempt 0 uses the given client and every later attempt a freshly built
direct client; every attempt before `k` failed with a retryable signal
("max retries" / "timeout" / "proxy" in the lowercased message); and if
attempt `k` failed, its error is propagated unchanged because either it
was the last allowed attempt or its message carried no retryable signal. -/
theorem C5_retry_direct_fallback
    (op : ApiClient → String → Option (List String) → ℕ → Except String α)
    (opL : ApiClient → String → ℕ → Except String β)
    (api apiL : ApiClient) (video_id : String)
    (languages : Option (List String)) (max_retries : ℕ) :
    (∃ k ≤ max_retries,
      fetch_with_retry op api video_id languages max_retries =
        fetchCall op (clientAt api k) video_id languages k ∧
      (∀ j < k, ∃ e,
        fetchCall op (clientAt api j) video_id languages j = .error e ∧
          retrySignal e = true) ∧
      (∀ e, fetchCall op (clientAt api k) video_id languages k = .error e →
        k = max_retries ∨ retrySignal e = false)) ∧
    (∃ k ≤ max_retries,
      list_with_retry opL apiL video_id max_retries =
        listCall opL (clientAt apiL k) video_id k ∧
      (∀ j < k, ∃ e,
        listCall opL (clientAt apiL j) video_id j = .error e ∧
          retrySignal e = true) ∧
      (∀ e, listCall opL (clientAt apiL k) video_id k = .error e →
        k = max_retries ∨ retrySignal e = false)) := by
  constructor
  · obtain ⟨k, _, hk2, hres, hfail, hlast⟩ :=
      fetchLoop_spec op video_id languages max_retries max_retries 0 api
        (Nat.zero_le _) rfl
    exact ⟨k, hk2, hres, fun j hj => hfail j (Nat.zero_le _) hj, hlast⟩
  · obtain ⟨k, _, hk2, hres, hfail, hlast⟩ :=
      listLoop_spec opL video_id max_retries max_retries 0 apiL
        (Nat.zero_le _) rfl
    exact ⟨k, hk2, hres, fun j hj => hfail j (Nat.zero_le _) hj, hlast⟩

/-- Witness for C5 at a concrete scenario: a proxy client whose first
attempt times out and whose second attempt (run on the rebuilt direct
client) succeeds, within `max_retries = 2`. -/
theorem C5_witness :
    (∃ k ≤ 2,
      fetch_with_retry
          (fun api _ _ i =>
            if i = 0 ∧ api ≠ ApiClient.direct then Except.error "Connection timeout"
            else Except.ok 7)
          (ApiClient.withProxy ⟨"http://u:p@h", "http://u:p@h"⟩) "vid" none 2 =
        fetchCall
          (fun api _ _ i =>
            if i = 0 ∧ api ≠ ApiClient.direct then Except.error "Connection timeout"
            else Except.ok 7)
          (clientAt (ApiClient.withProxy ⟨"http://u:p@h", "http://u:p@h"⟩) k) "vid" none k ∧
      (∀ j < k, ∃ e,
        fetchCall
          (fun api _ _ i =>
            if i = 0 ∧ api ≠ ApiClient.direct then Except.error "Connection timeout"
            else Except.ok 7)
          (clientAt (ApiClient.withProxy ⟨"http://u:p@h", "http://u:p@h"⟩) j) "vid" none j =
            .error e ∧ retrySignal e = true) ∧
      (∀ e, fetchCall
          (fun api _ _ i =>
            if i = 0 ∧ api ≠ ApiClient.direct then Except.error "Connection timeout"
            else Except.ok 7)
          (clientAt (ApiClient.withProxy ⟨"http://u:p@h", "http://u:p@h"⟩) k) "vid" none k =
            .error e →
        k = 2 ∨ retrySignal e = false)) ∧
    (∃ k ≤ 2,
      list_with_retry (fun _ _ _ => Except.ok 3) ApiClient.direct "vid" 2 =
        listCall (fun _ _ _ => Except.ok 3) (clientAt ApiClient.direct k) "vid" k ∧
      (∀ j < k, ∃ e,
        listCall (fun _ _ _ => Except.ok 3) (clientAt ApiClient.direct j) "vid" j =
          .error e ∧ retrySignal e = true) ∧
      (∀ e, listCall (fun _ _ _ => Except.ok 3) (clientAt ApiClient.direct k) "vid" k =
          .error e →
        k = 2 ∨ retrySignal e = false)) :=
  C5_retry_direct_fallback
    (fun api _ _ i =>
      if i = 0 ∧ api ≠ ApiClient.direct then Except.error "Connection timeout"
      else Except.ok 7)
    (fun _ _ _ => Except.ok 3)
    (ApiClient.withProxy ⟨"http://u:p@h", "http://u:p@h"⟩) ApiClient.direct "vid" none 2

/-- C10: for every `max_retries`, each coordinator's result is exactly the
outcome (success or error) of some attempt within the budget, so the
trailing `raise Exception("All retry attempts failed")` after the loop is
never the source of the result. -/
theorem C10_result_is_some_attempt
    (op : ApiClient → String → Option (List String) → ℕ → Except String α)
    (opL : ApiClient → String → ℕ → Except String β)
    (api apiL : ApiClient) (video_id : String)
    (languages : Option (List String)) (max_retries : ℕ) :
    (∃ k ≤ max_retries,
      fetch_with_retry op api video_id languages max_retries =
        fetchCall op (clientAt api k) video_id languages k) ∧
    (∃ k ≤ max_retries,
      list_with_retry opL apiL video_id max_retries =
        listCall opL (clientAt apiL k) video_id k) := by
  constructor
  · obtain ⟨k, _, hk2, hres, _, _⟩ :=
      fetchLoop_spec op video_id languages max_retries max_retries 0 api
        (Nat.zero_le _) rfl
    exact ⟨k, hk2, hres⟩
  · obtain ⟨k, _, hk2, hres, _, _⟩ :=
      listLoop_spec opL video_id max_retries max_retries 0 apiL
        (Nat.zero_le _) rfl
    exact ⟨k, hk2, hres⟩

/-- Witness for C10 at a concrete always-failing non-retryable scenario. -/
theorem C10_witness :
    (∃ k ≤ 1,
      fetch_with_retry (fun _ _ _ _ => (Except.error "boom" : Except String ℕ))
          ApiClient.direct "vid" none 1 =
        fetchCall (fun _ _ _ _ => (Except.error "boom" : Except String ℕ))
          (clientAt ApiClient.direct k) "vid" none k) ∧
    (∃ k ≤ 1,
      list_with_retry (fun _ _ _ => (Except.error "boom" : Except String ℕ))
          ApiClient.direct "vid" 1 =
        listCall (fun _ _ _ => (Except.error "boom" : Except String ℕ))
          (clientAt ApiClient.direct k) "vid" k) :=
  C10_result_is_some_attempt
    (fun _ _ _ _ => (Except.error "boom" : Except String ℕ))
    (fun _ _ _ => (Except.error "boom" : Except String ℕ))
    ApiClient.direct ApiClient.direct "vid" none 1

/-- C6: whenever the (lowercased) message carries "read timed out" or
"timeout" and none of the three earlier substring rules matches, the
classifier returns 504 regardless of the error's runtime class; and an
error matching no rule at all returns 500 with the stringified error in
the message. -/
theorem C6_classifier_timeout_504_default_500 (e : PyError) (video_id : String) :
    ((strHas (lowerStr e.msg) "read timed out" ||
        strHas (lowerStr e.msg) "timeout") = true →
      (strHas e.msg "407" || strHas (lowerStr e.msg) "auth failed" ||
        strHas (lowerStr e.msg) "ip_forbidden") = false →
      (strHas (lowerStr e.msg) "proxyerror" ||
        strHas (lowerStr e.msg) "tunnel connection failed") = false →
      (strHas (lowerStr e.msg) "max retries exceeded" ||
        strHas (lowerStr e.msg) "connection pool") = false →
      handle_transcript_errors e video_id =
        ⟨504, "Request timed out. Please try again later."⟩) ∧
    ((strHas e.msg "407" || strHas (lowerStr e.msg) "auth failed" ||
        strHas (lowerStr e.msg) "ip_forbidden") = false →
      (strHas (lowerStr e.msg) "proxyerror" ||
        strHas (lowerStr e.msg) "tunnel connection failed") = false →
      (strHas (lowerStr e.msg) "max retries exceeded" ||
        strHas (lowerStr e.msg) "connection pool") = false →
      (strHas (lowerStr e.msg) "read timed out" ||
        strHas (lowerStr e.msg) "timeout") = false →
      (strHas e.msg "429" || strHas (lowerStr e.msg) "too many requests") = false →
      e.kind = ErrKind.generic →
      handle_transcript_errors e video_id =
        ⟨500, "An unexpected error occurred: " ++ e.msg⟩) := by
  constructor
  · intro h4 h1 h2 h3
    simp only [handle_transcript_errors]
    rw [if_neg (by simp [h1]), if_neg (by simp [h2]), if_neg (by simp [h3]),
      if_pos (by simp [h4])]
  · intro h1 h2 h3 h4 h8 hk
    simp only [handle_transcript_errors]
    rw [if_neg (by simp [h1]), if_neg (by simp [h2]), if_neg (by simp [h3]),
      if_neg (by simp [h4]), if_neg (by simp [hk]), if_neg (by simp [hk]),
      if_neg (by simp [hk]), if_neg (by simp [h8]), if_neg (by simp [hk]),
      if_neg (by simp [hk]), if_neg (by simp [hk])]

/-- Witness for C6: a `VideoUnavailable`-class error whose message is
"Read timed out" (which would otherwise classify as 404 by rule 7) gets
504; a signal-free generic error gets 500. -/
theorem C6_witness :
    handle_transcript_errors ⟨ErrKind.videoUnavailable, "Read timed out"⟩ "abc" =
      ⟨504, "Request timed out. Please try again later."⟩ ∧
    handle_transcript_errors ⟨ErrKind.generic, "weird failure"⟩ "abc" =
      ⟨500, "An unexpected error occurred: weird failure"⟩ := by
  constructor
  · exact (C6_classifier_timeout_504_default_500
      ⟨ErrKind.videoUnavailable, "Read timed out"⟩ "abc").1
      (by decide) (by decide) (by decide) (by decide)
  · have := (C6_classifier_timeout_504_default_500
      ⟨ErrKind.generic, "weird failure"⟩ "abc").2
      (by decide) (by decide) (by decide) (by decide) (by decide) rfl
    simpa using this

/-- C7: with no token configured authentication succeeds with or without
credentials; with a (nonempty) token configured, a request with no
credentials is rejected 401 "Bearer token required", a request with a
wrong token is rejected 401 "Invalid bearer token", and a request with the
exact token passes. -/
theorem C7_bearer_token_auth (t c : String) (creds : Option String)
    (ht : t ≠ "") (hc : c ≠ t) :
    verify_bearer_token none creds = .ok true ∧
    verify_bearer_token (some t) none = .error ⟨401, "Bearer token required"⟩ ∧
    verify_bearer_token (some t) (some c) = .error ⟨401, "Invalid bearer token"⟩ ∧
    verify_bearer_token (some t) (some t) = .ok true := by
  refine ⟨rfl, ?_, ?_, ?_⟩
  · show (if t = "" then Except.ok true
      else Except.error (⟨401, "Bearer token required"⟩ : HTTPException)) = _
    rw [if_neg ht]
  · show (if t = "" then Except.ok true
      else if c ≠ t then Except.error (⟨401, "Invalid bearer token"⟩ : HTTPException)
      else Except.ok true) = _
    rw [if_neg ht, if_pos hc]
  · show (if t = "" then Except.ok true
      else if t ≠ t then Except.error (⟨401, "Invalid bearer token"⟩ : HTTPException)
      else Except.ok true) = _
    rw [if_neg ht, if_neg (by simp)]

/-- Witness for C7 with a concrete configured token and wrong credential. -/
theorem C7_witness :
    verify_bearer_token none none = .ok true ∧
    verify_bearer_token (some "secret") none =
      .error ⟨401, "Bearer token required"⟩ ∧
    verify_bearer_token (some "secret") (some "wrong") =
      .error ⟨401, "Invalid bearer token"⟩ ∧
    verify_bearer_token (some "secret") (some "secret") = .ok true :=
  C7_bearer_token_auth "secret" "wrong" none (by decide) (by decide)

/-- C8: the proxy selector is total (never raises): with credentials
absent (either one unset) the client is direct; with nonempty credentials
it builds the rotating configuration whose username is
`<user>-session-<token>` with an 8-character token taken from the fresh
UUID, and returns it when construction succeeds; if construction fails
with any error it falls back to the direct client. -/
theorem C8_proxy_selector_total (u p : String) (ep : Option String)
    (uuidStr : String) (build : ProxyConfig → Except String Unit)
    (hu : u ≠ "") (hp : p ≠ "") (hlen : 8 ≤ uuidStr.length) :
    (∀ (b2 : ProxyConfig → Except String Unit) (pw : Option String),
      get_youtube_api none pw ep uuidStr b2 = ApiClient.direct) ∧
    (∀ (b2 : ProxyConfig → Except String Unit) (un : String),
      get_youtube_api (some un) none ep uuidStr b2 = ApiClient.direct) ∧
    (build ⟨"http://" ++ (u ++ "-session-" ++ generate_session_id uuidStr) ++ ":" ++ p ++
          "@" ++ ep.getD "brd.superproxy.io:22225",
        "http://" ++ (u ++ "-session-" ++ generate_session_id uuidStr) ++ ":" ++ p ++
          "@" ++ ep.getD "brd.superproxy.io:22225"⟩ = .ok () →
      get_youtube_api (some u) (some p) ep uuidStr build =
        ApiClient.withProxy
          ⟨"http://" ++ (u ++ "-session-" ++ generate_session_id uuidStr) ++ ":" ++ p ++
            "@" ++ ep.getD "brd.superproxy.io:22225",
          "http://" ++ (u ++ "-session-" ++ generate_session_id uuidStr) ++ ":" ++ p ++
            "@" ++ ep.getD "brd.superproxy.io:22225"⟩) ∧
    (∀ msg, build ⟨"http://" ++ (u ++ "-session-" ++ generate_session_id uuidStr) ++ ":" ++ p ++
          "@" ++ ep.getD "brd.superproxy.io:22225",
        "http://" ++ (u ++ "-session-" ++ generate_session_id uuidStr) ++ ":" ++ p ++
          "@" ++ ep.getD "brd.superproxy.io:22225"⟩ = .error msg →
      get_youtube_api (some u) (some p) ep uuidStr build = ApiClient.direct) ∧
    (generate_session_id uuidStr).length = 8 := by
  refine ⟨fun b2 pw => by cases pw <;> rfl, fun b2 un => rfl, ?_, ?_, ?_⟩
  · intro hok
    show (if u ≠ "" ∧ p ≠ "" then _ else _) = _
    rw [if_pos ⟨hu, hp⟩]
    simp only [hok]
  · intro msg herr
    show (if u ≠ "" ∧ p ≠ "" then _ else _) = _
    rw [if_pos ⟨hu, hp⟩]
    simp only [herr]
  · show (⟨uuidStr.data.take 8⟩ : String).length = 8
    have : uuidStr.length = uuidStr.data.length := rfl
    simp only [String.length, List.length_take]
    omega

/-- Witness for C8: concrete credentials, a 16-character UUID string and a
successful construction produce the rotated proxy client. -/
theorem C8_witness :
    get_youtube_api (some "user") (some "pw") none "0123456789abcdef"
        (fun _ => Except.ok ()) =
      ApiClient.withProxy
        ⟨"http://user-session-01234567:pw@brd.superproxy.io:22225",
         "http://user-session-01234567:pw@brd.superproxy.io:22225"⟩ ∧
    (generate_session_id "0123456789abcdef").length = 8 := by
  have h := C8_proxy_selector_total "user" "pw" none "0123456789abcdef"
    (fun _ => Except.ok ()) (by decide) (by decide) (by decide)
  refine ⟨?_, h.2.2.2.2⟩
  have h2 := h.2.2.1 rfl
  exact h2.trans (by decide)

/-! ### Heap model of the pipeline, for the frame (no-mutation) property.
Python segments are objects referenced from lists; to state that
`apply_segment_filters` mutates no existing object and that merged outputs
are newly constructed objects, the same function is embedded once more over
an explicit object heap, with segments passed as references. -/

/-- Attribute record of one Python `TranscriptSegment` object. -/
structure SegData where
  text : String
  start : ℚ
  duration : ℚ
  «end» : ℚ
deriving DecidableEq

instance : Inhabited SegData := ⟨⟨"", 0, 0, 0⟩⟩

/-- An object heap: next fresh object id, and the attributes at each id. -/
structure Heap where
  next : ℕ
  store : ℕ → SegData

/-- Allocate a new segment object, returning its reference. -/
def allocSeg (h : Heap) (d : SegData) : Heap × ℕ :=
  (⟨h.next + 1, fun i => if i = h.next then d else h.store i⟩, h.next)

/-- The merged attribute record of one batch, read through the heap
(src/main.py lines 313-321). -/
def mergeChunkH (h : Heap) (batch : List ℕ) : SegData :=
  ⟨String.intercalate " " (batch.map (fun r => (h.store r).text)),
   round2 (h.store batch.headI).start,
   round2 ((h.store batch.getLastI).«end» - (h.store batch.headI).start),
   round2 (h.store batch.getLastI).«end»⟩

/-- The merge loop of src/main.py lines 309-323: one `TranscriptSegment`
construction (allocation) per batch, threading the heap. -/
def mergeLoopH : Heap → List (List ℕ) → Heap × List ℕ
  | h, [] => (h, [])
  | h, c :: cs =>
    let p := allocSeg h (mergeChunkH h c)
    let q := mergeLoopH p.1 cs
    (q.1, p.2 :: q.2)

/-- Heap version of `apply_segment_filters` (src/main.py lines 287-329): the
same four stages operating on object references; only the merge stage
constructs new objects, every other stage merely selects references. -/
def apply_segment_filtersH (h : Heap) (segments : List ℕ)
    (limit merge_segments : Option ℕ) (max_duration : Option ℚ)
    (sample_rate : Option ℕ) : Heap × List ℕ :=
  let fs0 := segments
  let fs1 := match max_duration with
    | some md => fs0.filter (fun r => decide ((h.store r).start < md))
    | none => fs0
  let fs2 := match sample_rate with
    | some sr => if 1 < sr then strideSelect fs1 sr else fs1
    | none => fs1
  let hfs3 := match merge_segments with
    | some ms => if 1 < ms then mergeLoopH h (chunkList ms fs2) else (h, fs2)
    | none => (h, fs2)
  match limit with
  | some l => (hfs3.1, hfs3.2.take l)
  | none => hfs3

theorem mergeLoopH_next_mono (cs : List (List ℕ)) (h : Heap) :
    h.next ≤ (mergeLoopH h cs).1.next := by
  induction cs generalizing h with
  | nil => exact le_refl _
  | cons c cs ih =>
    have := ih (allocSeg h (mergeChunkH h c)).1
    simp only [mergeLoopH]
    calc h.next ≤ h.next + 1 := by omega
    _ ≤ _ := this

theorem mergeLoopH_frame (cs : List (List ℕ)) (h : Heap) :
    ∀ i < h.next, (mergeLoopH h cs).1.store i = h.store i := by
  induction cs generalizing h with
  | nil => intro i _; rfl
  | cons c cs ih =>
    intro i hi
    simp only [mergeLoopH]
    have h1 := ih (allocSeg h (mergeChunkH h c)).1 i (by
      show i < h.next + 1
      omega)
    rw [h1]
    show (if i = h.next then mergeChunkH h c else h.store i) = h.store i
    rw [if_neg (by omega)]

theorem mergeLoopH_fresh (cs : List (List ℕ)) (h : Heap) :
    ∀ r ∈ (mergeLoopH h cs).2, h.next ≤ r := by
  induction cs generalizing h with
  | nil => intro r hr; exact absurd hr (List.not_mem_nil r)
  | cons c cs ih =>
    intro r hr
    simp only [mergeLoopH] at hr
    rcases List.mem_cons.mp hr with rfl | hr'
    · exact le_refl _
    · have := ih (allocSeg h (mergeChunkH h c)).1 r hr'
      have h2 : (allocSeg h (mergeChunkH h c)).1.next = h.next + 1 := rfl
      omega

/-- C9: the pipeline mutates nothing: every object existing before the
call has the same stored attributes afterwards (reference lists are values
in this model, so the caller's list is unchanged by construction); when no
merge is requested the heap is returned identical; and with merging active
every output reference is a freshly allocated object, never one of the
caller's segments. -/
theorem C9_pipeline_no_mutation (h : Heap) (segments : List ℕ)
    (limit merge_segments : Option ℕ) (max_duration : Option ℚ)
    (sample_rate : Option ℕ) :
    (∀ i < h.next,
      (apply_segment_filtersH h segments limit merge_segments max_duration
        sample_rate).1.store i = h.store i) ∧
    (merge_segments = none →
      (apply_segment_filtersH h segments limit merge_segments max_duration
        sample_rate).1 = h) ∧
    (∀ ms, merge_segments = some ms → 1 < ms →
      ∀ r ∈ (apply_segment_filtersH h segments limit merge_segments max_duration
        sample_rate).2, h.next ≤ r) := by
  refine ⟨?_, ?_, ?_⟩
  · intro i hi
    rcases merge_segments with _ | ms
    · rcases limit with _ | l <;> rfl
    · simp only [apply_segment_filtersH]
      by_cases hms : 1 < ms
      · simp only [if_pos hms]
        rcases limit with _ | l
        · exact mergeLoopH_frame _ h i hi
        · exact mergeLoopH_frame _ h i hi
      · simp only [if_neg hms]
        rcases limit with _ | l <;> rfl
  · intro hnone
    subst hnone
    rcases limit with _ | l <;> rfl
  · intro ms hms hms1 r hr
    subst hms
    simp only [apply_segment_filtersH, if_pos hms1] at hr
    rcases limit with _ | l
    · exact mergeLoopH_fresh _ h r hr
    · exact mergeLoopH_fresh _ h r (List.mem_of_mem_take hr)

/-- Witness for C9: a concrete two-object heap run through the merge
pipeline; object 0 is unchanged and every output reference is fresh. -/
theorem C9_witness :
    ((apply_segment_filtersH
        ⟨2, fun i => if i = 0 then ⟨"a", 0, 1, 1⟩ else ⟨"b", 1, 1, 2⟩⟩
        [0, 1] none (some 2) none none).1.store 0 =
      (⟨2, fun i => if i = 0 then ⟨"a", 0, 1, 1⟩ else ⟨"b", 1, 1, 2⟩⟩ : Heap).store 0) ∧
    (∀ r ∈ (apply_segment_filtersH
        ⟨2, fun i => if i = 0 then ⟨"a", 0, 1, 1⟩ else ⟨"b", 1, 1, 2⟩⟩
        [0, 1] none (some 2) none none).2,
      (⟨2, fun i => if i = 0 then ⟨"a", 0, 1, 1⟩ else ⟨"b", 1, 1, 2⟩⟩ : Heap).next ≤ r) := by
  constructor
  · exact (C9_pipeline_no_mutation
      ⟨2, fun i => if i = 0 then ⟨"a", 0, 1, 1⟩ else ⟨"b", 1, 1, 2⟩⟩
      [0, 1] none (some 2) none none).1 0 (by decide)
  · exact (C9_pipeline_no_mutation
      ⟨2, fun i => if i = 0 then ⟨"a", 0, 1, 1⟩ else ⟨"b", 1, 1, 2⟩⟩
      [0, 1] none (some 2) none none).2.2 2 rfl (by decide)

end YT
